import Mathlib

/-!
Verification of the CSS selector builder and JSON helpers of
`src/05-objects-tasks.js`.

The selector builder (`SelectorBuilder` class, lines 115-207) accumulates
selector fragments into one string while validating category order and
singleton constraints.  The JSON helpers `getJSON`/`fromJSON` (lines 38-59)
delegate to the JavaScript builtins `JSON.stringify` / `JSON.parse`, which we
model explicitly since they are not part of the repository's sources.
-/

/-- Fragment categories, matching the six `type` strings the source passes to
`SelectorBuilder.add` ('element', 'id', 'class', 'attr', 'pseudo-class',
'pseudo-element'). -/
inductive Cat where
  | element
  | id
  | «class»
  | attr
  | «pseudo-class»
  | «pseudo-element»
deriving DecidableEq, Repr

/-- The `this.order` array of the constructor (lines 119-126). -/
def order : List Cat :=
  [Cat.element, Cat.id, Cat.«class», Cat.attr, Cat.«pseudo-class», Cat.«pseudo-element»]

/-- The `this.occurences` object of the constructor (lines 127-134): one
boolean per category, all initially false. -/
structure Occurences where
  element : Bool
  id : Bool
  «class» : Bool
  attr : Bool
  «pseudo-class» : Bool
  «pseudo-element» : Bool
deriving DecidableEq, Repr

/-- Reading `this.occurences[type]`. -/
def Occurences.get (o : Occurences) : Cat → Bool
  | Cat.element => o.element
  | Cat.id => o.id
  | Cat.«class» => o.«class»
  | Cat.attr => o.attr
  | Cat.«pseudo-class» => o.«pseudo-class»
  | Cat.«pseudo-element» => o.«pseudo-element»

/-- Writing `this.occurences[type] = b`. -/
def Occurences.set (o : Occurences) (t : Cat) (b : Bool) : Occurences :=
  match t with
  | Cat.element => { o with element := b }
  | Cat.id => { o with id := b }
  | Cat.«class» => { o with «class» := b }
  | Cat.attr => { o with attr := b }
  | Cat.«pseudo-class» => { o with «pseudo-class» := b }
  | Cat.«pseudo-element» => { o with «pseudo-element» := b }

/-- `this.error1` (line 135). -/
def error1 : String :=
  "Selector parts should be arranged in the following order: element, id, class, attribute, pseudo-class, pseudo-element"

/-- `this.error2` (line 136). -/
def error2 : String :=
  "Element, id and pseudo-element should not occur more then one time inside the selector"

/-- A `SelectorBuilder` instance.  `current` is the `this.current` property:
it is never assigned by the constructor, so it starts out as JavaScript
`undefined`, modelled as `none`; `this.order.indexOf(undefined)` is `-1`. -/
structure SelectorBuilder where
  selector : String
  combinator : String
  occurences : Occurences
  current : Option Cat
deriving DecidableEq, Repr

/-- The state `new SelectorBuilder()` produces (constructor, lines 116-137). -/
def SelectorBuilder.new : SelectorBuilder :=
  { selector := ""
    combinator := ""
    occurences := ⟨false, false, false, false, false, false⟩
    current := none }

/-- `this.order.indexOf(this.current)`: JavaScript `indexOf` yields `-1` when
`this.current` is `undefined`, and the position (0..5) otherwise. -/
def indexOfOpt (c : Option Cat) : Int :=
  match c with
  | none => -1
  | some t => (order.indexOf t : Int)

/-- The per-category formatting of `add` (lines 158-170): an if/else chain on
`type`, with the plain value as the trailing `else` (the `element` case). -/
def fmtValue (t : Cat) (v : String) : String :=
  if t = Cat.id then "#" ++ v
  else if t = Cat.«class» then "." ++ v
  else if t = Cat.attr then "[" ++ v ++ "]"
  else if t = Cat.«pseudo-class» then ":" ++ v
  else if t = Cat.«pseudo-element» then "::" ++ v
  else v

/-- `SelectorBuilder.add` (lines 147-172).  The source first throws `error2`
when `this.occurences[type]` is set and `type` is element/id/pseudo-element
(nested ifs, lines 148-152), then throws `error1` when
`this.order.indexOf(type) < this.order.indexOf(this.current)` (lines 153-155),
and only then mutates `this.current`, `this.occurences` and `this.selector`
(lines 156-170).  A throw is modelled as `Except.error` paired with the state
at the moment of the throw, which is the unmutated receiver. -/
def SelectorBuilder.add (b : SelectorBuilder) (t : Cat) (v : String) :
    Except String Unit × SelectorBuilder :=
  if b.occurences.get t ∧ (t = Cat.element ∨ t = Cat.id ∨ t = Cat.«pseudo-element») then
    (Except.error error2, b)
  else if (order.indexOf t : Int) < indexOfOpt b.current then
    (Except.error error1, b)
  else
    (Except.ok (), { b with
      current := some t
      occurences := b.occurences.set t true
      selector := b.selector ++ fmtValue t v })

/-- Method `element` (lines 174-176). -/
def SelectorBuilder.element (b : SelectorBuilder) (value : String) :
    Except String Unit × SelectorBuilder :=
  b.add Cat.element value

/-- Method `id` (lines 178-180). -/
def SelectorBuilder.id (b : SelectorBuilder) (value : String) :
    Except String Unit × SelectorBuilder :=
  b.add Cat.id value

/-- Method `class` (lines 182-184). -/
def SelectorBuilder.«class» (b : SelectorBuilder) (value : String) :
    Except String Unit × SelectorBuilder :=
  b.add Cat.«class» value

/-- Method `attr` (lines 186-188). -/
def SelectorBuilder.attr (b : SelectorBuilder) (value : String) :
    Except String Unit × SelectorBuilder :=
  b.add Cat.attr value

/-- Method `pseudoClass` (lines 190-192). -/
def SelectorBuilder.pseudoClass (b : SelectorBuilder) (value : String) :
    Except String Unit × SelectorBuilder :=
  b.add Cat.«pseudo-class» value

/-- Method `stringify` (lines 204-206). -/
def SelectorBuilder.stringify (b : SelectorBuilder) : String :=
  b.selector

/-- Method `pseudoElement` (lines 194-196). -/
def SelectorBuilder.pseudoElement (b : SelectorBuilder) (value : String) :
    Except String Unit × SelectorBuilder :=
  b.add Cat.«pseudo-element» value

/-- Method `combine` (lines 198-202): sets `this.combinator` and overwrites
`this.selector` with the two stringified arguments joined by the combinator
padded with single spaces; no validation is performed. -/
def SelectorBuilder.combine (b : SelectorBuilder) (selector1 : SelectorBuilder)
    (combinator : String) (selector2 : SelectorBuilder) : SelectorBuilder :=
  { b with
    combinator := combinator
    selector := selector1.stringify ++ " " ++ combinator ++ " " ++ selector2.stringify }

/-- Facade `cssSelectorBuilder.combine` (lines 234-236): delegates to the
method on a fresh builder. -/
def cssSelectorBuilder.combine (selector1 : SelectorBuilder) (combinator : String)
    (selector2 : SelectorBuilder) : SelectorBuilder :=
  SelectorBuilder.new.combine selector1 combinator selector2

/-- Facade `cssSelectorBuilder.element` (lines 210-212). -/
def cssSelectorBuilder.element (value : String) : Except String Unit × SelectorBuilder :=
  SelectorBuilder.new.element value

/-- Facade `cssSelectorBuilder.id` (lines 214-216). -/
def cssSelectorBuilder.id (value : String) : Except String Unit × SelectorBuilder :=
  SelectorBuilder.new.id value

/-- Facade `cssSelectorBuilder.class` (lines 218-220). -/
def cssSelectorBuilder.«class» (value : String) : Except String Unit × SelectorBuilder :=
  SelectorBuilder.new.«class» value

/-- Facade `cssSelectorBuilder.attr` (lines 222-224). -/
def cssSelectorBuilder.attr (value : String) : Except String Unit × SelectorBuilder :=
  SelectorBuilder.new.attr value

/-- Facade `cssSelectorBuilder.pseudoClass` (lines 226-228). -/
def cssSelectorBuilder.pseudoClass (value : String) : Except String Unit × SelectorBuilder :=
  SelectorBuilder.new.pseudoClass value

/-- Facade `cssSelectorBuilder.pseudoElement` (lines 230-232). -/
def cssSelectorBuilder.pseudoElement (value : String) : Except String Unit × SelectorBuilder :=
  SelectorBuilder.new.pseudoElement value

/-- A chain of `add` calls.  A throw aborts the chain: the exception
propagates and the builder keeps the state it had at the moment of the
throw. -/
def runAdds (b : SelectorBuilder) : List (Cat × String) → Except String Unit × SelectorBuilder
  | [] => (Except.ok (), b)
  | (t, v) :: rest =>
    match b.add t v with
    | (Except.ok _, b2) => runAdds b2 rest
    | (Except.error e, b2) => (Except.error e, b2)

/-- Separator-free concatenation of the per-category formatted fragments of a
sequence of append calls. -/
def concatFrags : List (Cat × String) → String
  | [] => ""
  | (t, v) :: rest => fmtValue t v ++ concatFrags rest

/-!
JSON model.  `getJSON` (source lines 38-40) returns `JSON.stringify(obj)` and
`fromJSON` (lines 53-59) builds `Object.create(proto)` and `Object.assign`s
`JSON.parse(json)` onto it.  `JSON.stringify` and `JSON.parse` are JavaScript
builtins, not code of this repository, so they are modelled here from the
spec's external contract (spec section 6: `serialize(value) -> text`,
`deserialize(protoDescriptor, text) -> value`, a round trip that merges the
parsed fields onto a value of the given shape).
-/

/-- JSON-representable values: null, booleans, numbers, strings, arrays and
plain objects (fields in insertion order).  Numbers are modelled as integers;
JavaScript float formatting is outside the shallow embedding. -/
inductive JsonVal where
  | null
  | bool (b : Bool)
  | num (n : Int)
  | str (s : String)
  | arr (items : List JsonVal)
  | obj (fields : List (String × JsonVal))

/-- Decimal digit character for a value below ten. -/
def digitChar (n : Nat) : Char :=
  match n with
  | 0 => '0'
  | 1 => '1'
  | 2 => '2'
  | 3 => '3'
  | 4 => '4'
  | 5 => '5'
  | 6 => '6'
  | 7 => '7'
  | 8 => '8'
  | _ => '9'

/-- Numeric value of a decimal digit character. -/
def digitVal (c : Char) : Nat :=
  c.toNat - 48

/-- Decimal digits of a natural number, most significant first. -/
def natDigits (n : Nat) : List Char :=
  if n < 10 then [digitChar n]
  else natDigits (n / 10) ++ [digitChar (n % 10)]
termination_by n
decreasing_by exact Nat.div_lt_self (by omega) (by omega)

/-- Decimal rendering of an integer: a minus sign followed by the digits of
the absolute value when negative, plain digits otherwise. -/
def numChars (n : Int) : List Char :=
  if n < 0 then '-' :: natDigits n.natAbs else natDigits n.toNat

/-- Consume a run of decimal digits, accumulating their value. -/
def parseNatLoop (acc : Nat) : List Char → Nat × List Char
  | [] => (acc, [])
  | c :: rest =>
    if c.isDigit then parseNatLoop (acc * 10 + digitVal c) rest else (acc, c :: rest)

/-- Parse a natural number: requires at least one leading digit. -/
def parseNat (cs : List Char) : Option (Nat × List Char) :=
  match cs with
  | c :: _ => if c.isDigit then some (parseNatLoop 0 cs) else none
  | [] => none

/-- Escape one character for inclusion in a JSON string literal.  Quotes and
backslashes are escaped, as are the common control characters newline, tab
and carriage return; other characters are emitted as themselves. -/
def escChar (c : Char) : List Char :=
  if c = '"' then ['\\', '"']
  else if c = '\\' then ['\\', '\\']
  else if c = '\n' then ['\\', 'n']
  else if c = '\t' then ['\\', 't']
  else if c = '\r' then ['\\', 'r']
  else [c]

/-- Escape a whole string body. -/
def escStr : List Char → List Char
  | [] => []
  | c :: tl => escChar c ++ escStr tl

/-- Invert a string escape code. -/
def unescapeChar (e : Char) : Option Char :=
  if e = '"' then some '"'
  else if e = '\\' then some '\\'
  else if e = 'n' then some '\n'
  else if e = 't' then some '\t'
  else if e = 'r' then some '\r'
  else none

/-- Parse a JSON string body up to and including the closing quote. -/
def parseStringBody : List Char → Option (List Char × List Char)
  | [] => none
  | c :: rest =>
    if c = '"' then some ([], rest)
    else if c = '\\' then
      match rest with
      | [] => none
      | e :: rest2 =>
        match unescapeChar e with
        | some d =>
          match parseStringBody rest2 with
          | some (s, r) => some (d :: s, r)
          | none => none
        | none => none
    else
      match parseStringBody rest with
      | some (s, r) => some (c :: s, r)
      | none => none

/-- Whether the input does not continue with a digit (used to delimit a
trailing number). -/
def headNotDigit : List Char → Bool
  | [] => true
  | c :: _ => !c.isDigit

/-- Serialized numbers are not self-delimiting, so a serialized value may
only be followed by input that does not continue with a digit when the value
is a number. -/
def numGuard : JsonVal → List Char → Bool
  | JsonVal.num _, rest => headNotDigit rest
  | _, _ => true

/-!
Serialized characters of a JSON value (`strV`), of the comma-separated
items of a non-empty array (`strItems`) and of the comma-separated
`"key":value` fields of a non-empty object (`strFields`).  Compact form, no
whitespace, insertion order preserved.
-/
mutual
def strV : JsonVal → List Char
  | JsonVal.null => ['n', 'u', 'l', 'l']
  | JsonVal.bool true => ['t', 'r', 'u', 'e']
  | JsonVal.bool false => ['f', 'a', 'l', 's', 'e']
  | JsonVal.num n => numChars n
  | JsonVal.str s => '"' :: (escStr s.data ++ ['"'])
  | JsonVal.arr l => '[' :: (strItems l ++ [']'])
  | JsonVal.obj fs => '\x7b' :: (strFields fs ++ ['\x7d'])

def strItems : List JsonVal → List Char
  | [] => []
  | [v] => strV v
  | v :: tl => strV v ++ (',' :: strItems tl)

def strFields : List (String × JsonVal) → List Char
  | [] => []
  | [(k, v)] => '"' :: (escStr k.data ++ ('"' :: (':' :: strV v)))
  | (k, v) :: tl =>
    ('"' :: (escStr k.data ++ ('"' :: (':' :: strV v)))) ++ (',' :: strFields tl)
end

/-- Match an expected literal character sequence. -/
def expectChars : List Char → List Char → Option (List Char)
  | [], cs => some cs
  | _ :: _, [] => none
  | e :: es, c :: cs => if c = e then expectChars es cs else none

/-!
Fuel-indexed JSON parser: a value (`parseVal`), the items of a non-empty
array up to and including the closing bracket (`parseItems`), and the fields
of a non-empty object up to and including the closing brace (`parseFields`).
-/
mutual
def parseVal : Nat → List Char → Option (JsonVal × List Char)
  | 0, _ => none
  | fuel + 1, cs =>
    match cs with
    | [] => none
    | c :: r =>
      if c = 'n' then (expectChars ['u', 'l', 'l'] r).map (fun r2 => (JsonVal.null, r2))
      else if c = 't' then
        (expectChars ['r', 'u', 'e'] r).map (fun r2 => (JsonVal.bool true, r2))
      else if c = 'f' then
        (expectChars ['a', 'l', 's', 'e'] r).map (fun r2 => (JsonVal.bool false, r2))
      else if c = '"' then
        (parseStringBody r).map (fun p => (JsonVal.str (String.mk p.1), p.2))
      else if c = '[' then
        if r.head? = some ']' then some (JsonVal.arr [], r.tail)
        else (parseItems fuel r).map (fun p => (JsonVal.arr p.1, p.2))
      else if c = '\x7b' then
        if r.head? = some '\x7d' then some (JsonVal.obj [], r.tail)
        else (parseFields fuel r).map (fun p => (JsonVal.obj p.1, p.2))
      else if c = '-' then (parseNat r).map (fun p => (JsonVal.num (-(p.1 : Int)), p.2))
      else if c.isDigit then (parseNat (c :: r)).map (fun p => (JsonVal.num ((p.1 : Int)), p.2))
      else none

def parseItems : Nat → List Char → Option (List JsonVal × List Char)
  | 0, _ => none
  | fuel + 1, cs =>
    match parseVal fuel cs with
    | some (v, r) =>
      if r.head? = some ',' then (parseItems fuel r.tail).map (fun p => (v :: p.1, p.2))
      else if r.head? = some ']' then some ([v], r.tail)
      else none
    | none => none

def parseFields : Nat → List Char → Option (List (String × JsonVal) × List Char)
  | 0, _ => none
  | fuel + 1, cs =>
    match cs with
    | [] => none
    | c :: r =>
      if c = '"' then
        match parseStringBody r with
        | some (k, r2) =>
          if r2.head? = some ':' then
            match parseVal fuel r2.tail with
            | some (v, r3) =>
              if r3.head? = some ',' then
                (parseFields fuel r3.tail).map (fun p => ((String.mk k, v) :: p.1, p.2))
              else if r3.head? = some '\x7d' then some ([(String.mk k, v)], r3.tail)
              else none
            | none => none
          else none
        | none => none
      else none
end

/-- Modelled from the spec: `JSON.stringify` (a JavaScript builtin absent
from the sources), restricted to JSON-representable values with integral
numbers.  Spec section 6: `serialize(value) -> text`. -/
def jsonStringify (v : JsonVal) : String :=
  String.mk (strV v)

/-- Modelled from the spec: `JSON.parse` (a JavaScript builtin absent from
the sources).  A parse error (modelled as `none`) corresponds to the builtin
throwing `SyntaxError`.  Spec section 6: `deserialize` parses the text. -/
def jsonParse (s : String) : Option JsonVal :=
  match parseVal (s.data.length + 1) s.data with
  | some (v, []) => some v
  | _ => none

/-- `getJSON` (lines 38-40): returns `JSON.stringify(obj)`. -/
def getJSON (obj : JsonVal) : String :=
  jsonStringify obj

/-- The result shape of `fromJSON`: a value whose prototype is the given
`proto` and whose own fields are the merged ones. -/
structure JSObject (Proto : Type) where
  proto : Proto
  fields : List (String × JsonVal)

/-- Own enumerable string-keyed fields `Object.assign` copies from a parsed
JSON value: the fields of an object, nothing for the primitives.  (A parsed
string would contribute index properties; that case is irrelevant to the
round trip through a plain object and modelled as contributing nothing.) -/
def assignFields : JsonVal → List (String × JsonVal)
  | JsonVal.obj fs => fs
  | _ => []

/-- `fromJSON` (lines 53-59): `Object.create(proto)` makes a fresh value of
shape `proto` with no own fields, `JSON.parse` parses the text (`none`
models the builtin throwing on malformed input), and `Object.assign` merges
the parsed fields onto the fresh value. -/
def fromJSON {Proto : Type} (proto : Proto) (json : String) : Option (JSObject Proto) :=
  match jsonParse json with
  | some parsed => some { proto := proto, fields := assignFields parsed }
  | none => none

/-!
Helper lemmas about the builder.
-/

/-- A successful `add` extends the accumulated selector by exactly the
formatted fragment. -/
theorem add_ok_selector (b b2 : SelectorBuilder) (t : Cat) (v : String) (u : Unit)
    (h : b.add t v = (Except.ok u, b2)) :
    b2.selector = b.selector ++ fmtValue t v := by
  unfold SelectorBuilder.add at h
  split at h
  · simp at h
  · split at h
    · simp at h
    · simp only [Prod.mk.injEq] at h
      rw [← h.2]

/-- Appending `class` or `attr` can never produce the duplicate-singleton
message: those categories are not singleton-checked. -/
theorem add_class_attr_ne_error2 (b : SelectorBuilder) (t : Cat) (v : String)
    (ht : t = Cat.«class» ∨ t = Cat.attr) :
    (b.add t v).1 ≠ Except.error error2 := by
  rcases ht with h | h <;> subst h <;>
    simp only [SelectorBuilder.add] <;>
    rw [if_neg (by simp)] <;>
    split <;> simp [error1, error2]

/-!
Claim theorems.
-/

/-- C1, counterexample: the claim says appending any category other than
class and attribute twice in a row is rejected, but the code accepts two
consecutive `pseudo-class` fragments (it is not singleton-checked and the
order comparison is strict), producing ":hover:focus". -/
theorem C1_counterexample :
    (runAdds SelectorBuilder.new
        [(Cat.«pseudo-class», "hover"), (Cat.«pseudo-class», "focus")]).1 = Except.ok () ∧
      (runAdds SelectorBuilder.new
        [(Cat.«pseudo-class», "hover"), (Cat.«pseudo-class», "focus")]).2.stringify =
        ":hover:focus" :=
  ⟨rfl, rfl⟩

/-- C1, amended: every successful append is at a category position at least
that of the most recently appended category (non-decreasing order), and when
the appended category equals the previous one (already recorded), the append
succeeds exactly when the category is class, attribute or pseudo-class;
element, id and pseudo-element repeats are rejected. -/
theorem C1_amended_order_invariant :
    (∀ (b : SelectorBuilder) (t : Cat) (v : String),
        (b.add t v).1 = Except.ok () → indexOfOpt b.current ≤ (order.indexOf t : Int)) ∧
      (∀ (b : SelectorBuilder) (t : Cat) (v : String),
        b.current = some t → b.occurences.get t = true →
          ((b.add t v).1 = Except.ok () ↔
            (t = Cat.«class» ∨ t = Cat.attr ∨ t = Cat.«pseudo-class»))) := by
  constructor
  · intro b t v h
    unfold SelectorBuilder.add at h
    split at h
    · simp at h
    · split at h
      · simp at h
      · omega
  · intro b t v hcur hocc
    cases t <;> simp [SelectorBuilder.add, hcur, hocc, indexOfOpt]

/-- Witness for C1: after a lone `id` fragment, appending `class` succeeded
and indeed respects the order; after a `pseudo-class` fragment, a second
`pseudo-class` append succeeds. -/
theorem C1_witness :
    indexOfOpt ((SelectorBuilder.new.add Cat.id "main").2).current ≤
        (order.indexOf Cat.«class» : Int) ∧
      (((runAdds SelectorBuilder.new [(Cat.«pseudo-class», "x")]).2).add
          Cat.«pseudo-class» "y").1 = Except.ok () := by
  constructor
  · exact C1_amended_order_invariant.1 ((SelectorBuilder.new.add Cat.id "main").2)
      Cat.«class» "container" rfl
  · exact (C1_amended_order_invariant.2
      ((runAdds SelectorBuilder.new [(Cat.«pseudo-class», "x")]).2)
      Cat.«pseudo-class» "y" rfl rfl).mpr (Or.inr (Or.inr rfl))

/-- C2: once a fragment of a singleton category (element, id or
pseudo-element) has been recorded, appending that category again raises
exactly the fixed duplicate message of `this.error2`. -/
theorem C2_duplicate_singleton_error (b : SelectorBuilder) (t : Cat) (v : String)
    (hsing : t = Cat.element ∨ t = Cat.id ∨ t = Cat.«pseudo-element»)
    (hocc : b.occurences.get t = true) :
    (b.add t v).1 =
      Except.error
        "Element, id and pseudo-element should not occur more then one time inside the selector" := by
  unfold SelectorBuilder.add
  rw [if_pos ⟨hocc, hsing⟩]
  rfl

/-- Witness for C2: appending `id` twice. -/
theorem C2_witness :
    ((SelectorBuilder.new.add Cat.id "a").2.add Cat.id "b").1 =
      Except.error
        "Element, id and pseudo-element should not occur more then one time inside the selector" :=
  C2_duplicate_singleton_error _ Cat.id "b" (Or.inr (Or.inl rfl)) rfl

/-- C3, counterexample: after `id` then `class`, appending `id` again has a
category position (1) strictly below the last appended category's (2), yet
the raised message is the duplicate-singleton one, not the out-of-order one,
because the duplicate check runs first. -/
theorem C3_counterexample :
    (order.indexOf Cat.id : Int) <
        indexOfOpt ((runAdds SelectorBuilder.new [(Cat.id, "a"), (Cat.«class», "b")]).2).current ∧
      ((runAdds SelectorBuilder.new [(Cat.id, "a"), (Cat.«class», "b")]).2.add Cat.id "c").1 ≠
        Except.error error1 ∧
      ((runAdds SelectorBuilder.new [(Cat.id, "a"), (Cat.«class», "b")]).2.add Cat.id "c").1 =
        Except.error error2 := by
  refine ⟨by decide, ?_, rfl⟩
  intro h
  rw [(rfl :
    ((runAdds SelectorBuilder.new [(Cat.id, "a"), (Cat.«class», "b")]).2.add Cat.id "c").1 =
      Except.error error2)] at h
  exact absurd (Except.error.inj h) (by decide)

/-- C3, amended: provided the appended category is not an already-recorded
singleton (element/id/pseudo-element) — in which case the duplicate check
fires first — appending a fragment whose fixed-order position is strictly
below the most recently appended category's raises exactly the fixed
out-of-order message of `this.error1`. -/
theorem C3_amended_order_error (b : SelectorBuilder) (t : Cat) (v : String)
    (hnotdup : ¬(b.occurences.get t = true ∧
      (t = Cat.element ∨ t = Cat.id ∨ t = Cat.«pseudo-element»)))
    (hord : (order.indexOf t : Int) < indexOfOpt b.current) :
    (b.add t v).1 =
      Except.error
        "Selector parts should be arranged in the following order: element, id, class, attribute, pseudo-class, pseudo-element" := by
  unfold SelectorBuilder.add
  rw [if_neg hnotdup, if_pos hord]
  rfl

/-- Witness for C3: appending `class` after `id`, then `element`, raises the
out-of-order message. -/
theorem C3_witness :
    (((runAdds SelectorBuilder.new [(Cat.id, "a"), (Cat.«class», "b")]).2).add
        Cat.element "c").1 =
      Except.error
        "Selector parts should be arranged in the following order: element, id, class, attribute, pseudo-class, pseudo-element" :=
  C3_amended_order_error _ Cat.element "c" (by decide) (by decide)

/-- C4: `combine` inserts any combinator string verbatim between the two
stringified selectors with single-space padding, never raising an error (it
is a total function); in particular with "+" the result is
left ++ " + " ++ right. -/
theorem C4_combine_verbatim (A B : SelectorBuilder) (c : String) :
    (cssSelectorBuilder.combine A c B).stringify =
        A.stringify ++ " " ++ c ++ " " ++ B.stringify ∧
      (cssSelectorBuilder.combine A "+" B).stringify =
        A.stringify ++ " + " ++ B.stringify := by
  refine ⟨rfl, ?_⟩
  show A.stringify ++ " " ++ "+" ++ " " ++ B.stringify = A.stringify ++ " + " ++ B.stringify
  rw [String.append_assoc A.stringify " " "+",
    String.append_assoc A.stringify (" " ++ "+") " "]
  rfl

/-- The selector accumulated by a successful chain of appends is the starting
selector followed by the formatted fragments in order. -/
theorem runAdds_selector_append (frags : List (Cat × String)) :
    ∀ (b0 b : SelectorBuilder), runAdds b0 frags = (Except.ok (), b) →
      b.selector = b0.selector ++ concatFrags frags := by
  induction frags with
  | nil =>
    intro b0 b h
    simp only [runAdds, Prod.mk.injEq] at h
    rw [← h.2, concatFrags, String.append_empty]
  | cons p rest ih =>
    intro b0 b h
    obtain ⟨t, v⟩ := p
    unfold runAdds at h
    rcases hadd : b0.add t v with ⟨e, b2⟩
    rw [hadd] at h
    cases e with
    | error msg => simp at h
    | ok u =>
      have h2 := ih b2 b h
      have h3 := add_ok_selector b0 b2 t v u hadd
      rw [h2, h3, concatFrags, String.append_assoc]

/-- C5: whenever a chain of appends on a fresh builder succeeds, `stringify`
returns the separator-free concatenation of the per-category formatted
fragments (element as the raw value, id with '#', class with '.', attr in
'[..]', pseudo-class with ':', pseudo-element with '::'). -/
theorem C5_stringify_concat (frags : List (Cat × String)) (b : SelectorBuilder)
    (h : runAdds SelectorBuilder.new frags = (Except.ok (), b)) :
    b.stringify = concatFrags frags := by
  have h2 := runAdds_selector_append frags SelectorBuilder.new b h
  rw [SelectorBuilder.stringify, h2]
  exact String.empty_append _

/-- Witness for C5: id('main').class('container').class('editable')
stringifies to "#main.container.editable". -/
theorem C5_witness :
    (runAdds SelectorBuilder.new
        [(Cat.id, "main"), (Cat.«class», "container"), (Cat.«class», "editable")]).2.stringify =
      "#main.container.editable" := by
  have h : runAdds SelectorBuilder.new
      [(Cat.id, "main"), (Cat.«class», "container"), (Cat.«class», "editable")] =
      (Except.ok (), (runAdds SelectorBuilder.new
        [(Cat.id, "main"), (Cat.«class», "container"), (Cat.«class», "editable")]).2) := rfl
  rw [C5_stringify_concat
    [(Cat.id, "main"), (Cat.«class», "container"), (Cat.«class», "editable")] _ h]
  rfl

/-- C6: a chain of `class`/`attr` appends, from any builder state, never
raises the duplicate-singleton error: only element, id and pseudo-element
are singleton-checked. -/
theorem C6_class_attr_never_duplicate (b : SelectorBuilder) (frags : List (Cat × String))
    (h : ∀ p ∈ frags, p.1 = Cat.«class» ∨ p.1 = Cat.attr) :
    (runAdds b frags).1 ≠ Except.error error2 := by
  induction frags generalizing b with
  | nil => simp [runAdds]
  | cons p rest ih =>
    obtain ⟨t, v⟩ := p
    have ht := h (t, v) (List.mem_cons_self _ _)
    unfold runAdds
    rcases hadd : b.add t v with ⟨e, b2⟩
    cases e with
    | ok u => exact ih b2 (fun q hq => h q (List.mem_cons_of_mem _ hq))
    | error msg =>
      intro hcontra
      simp only [Except.error.injEq] at hcontra
      have hne := add_class_attr_ne_error2 b t v ht
      rw [hadd, hcontra] at hne
      exact hne rfl

/-- Witness for C6: two consecutive class appends on a fresh builder. -/
theorem C6_witness :
    (runAdds SelectorBuilder.new [(Cat.«class», "a"), (Cat.«class», "b")]).1 ≠
      Except.error error2 :=
  C6_class_attr_never_duplicate SelectorBuilder.new
    [(Cat.«class», "a"), (Cat.«class», "b")] (by decide)

/-- C7: on a freshly constructed builder the very first append of any
category never fails the ordering check (`this.current` is undefined, so its
index is -1, below every category position) and never raises the
out-of-order message. -/
theorem C7_first_append_passes_order (t : Cat) (v : String) :
    ¬((order.indexOf t : Int) < indexOfOpt SelectorBuilder.new.current) ∧
      (SelectorBuilder.new.add t v).1 ≠
        Except.error
          "Selector parts should be arranged in the following order: element, id, class, attribute, pseudo-class, pseudo-element" := by
  have hok : (SelectorBuilder.new.add t v).1 = Except.ok () := by cases t <;> rfl
  refine ⟨by cases t <;> decide, ?_⟩
  rw [hok]
  intro h
  exact Except.noConfusion h

/-- C8: when an append violates both constraints at once — the category is a
recorded singleton AND its position is strictly before the last appended
category's — the duplicate-singleton message is the one raised, since that
check runs before the ordering check. -/
theorem C8_duplicate_check_first (b : SelectorBuilder) (t : Cat) (v : String)
    (hocc : b.occurences.get t = true)
    (hsing : t = Cat.element ∨ t = Cat.id ∨ t = Cat.«pseudo-element»)
    (_hord : (order.indexOf t : Int) < indexOfOpt b.current) :
    (b.add t v).1 = Except.error error2 := by
  unfold SelectorBuilder.add
  rw [if_pos ⟨hocc, hsing⟩]

/-- Witness for C8: id, then class, then id again — both checks are violated
and the duplicate-singleton message is raised. -/
theorem C8_witness :
    (((runAdds SelectorBuilder.new [(Cat.id, "a"), (Cat.«class», "b")]).2).add Cat.id "c").1 =
      Except.error error2 :=
  C8_duplicate_check_first _ Cat.id "c" rfl (Or.inr (Or.inl rfl)) (by decide)

/-- C10: a failed append (either validation error) leaves the builder's
accumulated selector text, seen-category flags and last-appended category
exactly as they were: both checks run and throw before any mutation. -/
theorem C10_error_leaves_state (b : SelectorBuilder) (t : Cat) (v : String) (e : String)
    (h : (b.add t v).1 = Except.error e) :
    (b.add t v).2.selector = b.selector ∧ (b.add t v).2.occurences = b.occurences ∧
      (b.add t v).2.current = b.current := by
  by_cases h1 : b.occurences.get t = true ∧
      (t = Cat.element ∨ t = Cat.id ∨ t = Cat.«pseudo-element»)
  · simp [SelectorBuilder.add, h1]
  · by_cases h2 : (order.indexOf t : Int) < indexOfOpt b.current
    · simp [SelectorBuilder.add, h1, h2]
    · exfalso
      simp [SelectorBuilder.add, h1, h2] at h

/-- Witness for C10: the duplicate `id` append fails and leaves the selector
text, flags and last category of the builder untouched. -/
theorem C10_witness :
    ((SelectorBuilder.new.add Cat.id "a").2.add Cat.id "b").2.selector =
        (SelectorBuilder.new.add Cat.id "a").2.selector ∧
      ((SelectorBuilder.new.add Cat.id "a").2.add Cat.id "b").2.occurences =
        (SelectorBuilder.new.add Cat.id "a").2.occurences ∧
      ((SelectorBuilder.new.add Cat.id "a").2.add Cat.id "b").2.current =
        (SelectorBuilder.new.add Cat.id "a").2.current :=
  C10_error_leaves_state _ Cat.id "b" error2 rfl

/-!
Round-trip lemmas for the modelled JSON serializer and parser.
-/

/-- Matching a literal sequence against itself succeeds and leaves the
remainder. -/
theorem expectChars_append (xs rest : List Char) : expectChars xs (xs ++ rest) = some rest := by
  induction xs with
  | nil => rfl
  | cons c cs ih => simp [expectChars, ih]

/-- The digit character of a value below ten is a digit. -/
theorem digitChar_isDigit (n : Nat) (h : n < 10) : (digitChar n).isDigit = true := by
  interval_cases n <;> decide

/-- Digit character and digit value are mutually inverse below ten. -/
theorem digitVal_digitChar (n : Nat) (h : n < 10) : digitVal (digitChar n) = n := by
  interval_cases n <;> decide

/-- The decimal rendering of a natural number is non-empty and starts with a
digit. -/
theorem natDigits_cons (n : Nat) : ∃ c cs, natDigits n = c :: cs ∧ c.isDigit = true := by
  induction n using Nat.strong_induction_on with
  | _ n ih =>
    by_cases h : n < 10
    · exact ⟨digitChar n, [], by rw [natDigits, if_pos h], digitChar_isDigit n h⟩
    · obtain ⟨c, cs, heq, hdig⟩ := ih (n / 10) (Nat.div_lt_self (by omega) (by omega))
      refine ⟨c, cs ++ [digitChar (n % 10)], ?_, hdig⟩
      rw [natDigits, if_neg h, heq]
      rfl

/-- The digit-consuming loop absorbs a full decimal rendering, shifting the
accumulator by the corresponding power of ten. -/
theorem parseNatLoop_append (n : Nat) : ∀ (acc : Nat) (rest : List Char),
    parseNatLoop acc (natDigits n ++ rest) =
      parseNatLoop (acc * 10 ^ (natDigits n).length + n) rest := by
  induction n using Nat.strong_induction_on with
  | _ n ih =>
    intro acc rest
    by_cases h : n < 10
    · rw [natDigits, if_pos h]
      simp [parseNatLoop, digitChar_isDigit n h, digitVal_digitChar n h]
    · rw [natDigits, if_neg h, List.append_assoc, List.singleton_append,
        ih (n / 10) (Nat.div_lt_self (by omega) (by omega)) acc (digitChar (n % 10) :: rest)]
      have h10 : n % 10 < 10 := Nat.mod_lt _ (by omega)
      simp only [parseNatLoop, digitChar_isDigit _ h10, digitVal_digitChar _ h10, if_true,
        List.length_append, List.length_singleton]
      congr 1
      rw [pow_succ, ← Nat.mul_assoc]
      generalize acc * 10 ^ (natDigits (n / 10)).length = A
      omega

/-- The digit-consuming loop stops at a non-digit (or the end). -/
theorem parseNatLoop_stop (acc : Nat) (rest : List Char) (h : headNotDigit rest = true) :
    parseNatLoop acc rest = (acc, rest) := by
  cases rest with
  | nil => rfl
  | cons c tl =>
    simp only [headNotDigit, Bool.not_eq_true'] at h
    simp [parseNatLoop, h]

/-- Parsing the decimal rendering of a natural number followed by a non-digit
recovers the number. -/
theorem parseNat_natDigits (n : Nat) (rest : List Char) (h : headNotDigit rest = true) :
    parseNat (natDigits n ++ rest) = some (n, rest) := by
  obtain ⟨c, cs, heq, hdig⟩ := natDigits_cons n
  have hloop : parseNatLoop 0 (natDigits n ++ rest) = (n, rest) := by
    rw [parseNatLoop_append n 0 rest, parseNatLoop_stop _ _ h]
    simp
  rw [heq] at hloop ⊢
  rw [List.cons_append] at hloop ⊢
  simp [parseNat, hdig, hloop]

/-- Parsing an escaped string body followed by the closing quote recovers the
original characters. -/
theorem parseStringBody_escStr (l : List Char) : ∀ rest : List Char,
    parseStringBody (escStr l ++ ('"' :: rest)) = some (l, rest) := by
  induction l with
  | nil =>
    intro rest
    show parseStringBody ('"' :: rest) = some ([], rest)
    rw [parseStringBody.eq_def]
    simp
  | cons c tl ih =>
    intro rest
    by_cases h1 : c = '"'
    · subst h1
      have hl : escStr ('"' :: tl) ++ ('"' :: rest) =
          '\\' :: ('"' :: (escStr tl ++ ('"' :: rest))) := by
        simp [escStr, escChar]
      rw [hl, parseStringBody.eq_def]
      simp [unescapeChar, ih]
    · by_cases h2 : c = '\\'
      · subst h2
        have hl : escStr ('\\' :: tl) ++ ('"' :: rest) =
            '\\' :: ('\\' :: (escStr tl ++ ('"' :: rest))) := by
          simp [escStr, escChar]
        rw [hl, parseStringBody.eq_def]
        simp [unescapeChar, ih]
      · by_cases h3 : c = '\n'
        · subst h3
          have hl : escStr ('\n' :: tl) ++ ('"' :: rest) =
              '\\' :: ('n' :: (escStr tl ++ ('"' :: rest))) := by
            simp [escStr, escChar]
          rw [hl, parseStringBody.eq_def]
          simp [unescapeChar, ih]
        · by_cases h4 : c = '\t'
          · subst h4
            have hl : escStr ('\t' :: tl) ++ ('"' :: rest) =
                '\\' :: ('t' :: (escStr tl ++ ('"' :: rest))) := by
              simp [escStr, escChar]
            rw [hl, parseStringBody.eq_def]
            simp [unescapeChar, ih]
          · by_cases h5 : c = '\r'
            · subst h5
              have hl : escStr ('\r' :: tl) ++ ('"' :: rest) =
                  '\\' :: ('r' :: (escStr tl ++ ('"' :: rest))) := by
                simp [escStr, escChar]
              rw [hl, parseStringBody.eq_def]
              simp [unescapeChar, ih]
            · have hl : escStr (c :: tl) ++ ('"' :: rest) =
                  c :: (escStr tl ++ ('"' :: rest)) := by
                simp [escStr, escChar, h1, h2, h3, h4, h5]
              rw [hl, parseStringBody.eq_def]
              simp [h1, h2, ih]

/-- The serialized-number guard holds whenever the remainder starts with a
non-digit. -/
theorem numGuard_cons (v : JsonVal) (c : Char) (tl : List Char) (h : c.isDigit = false) :
    numGuard v (c :: tl) = true := by
  cases v <;> simp [numGuard, headNotDigit, h]

/-- A digit is none of the parser's dispatch characters. -/
theorem isDigit_ne (c : Char) (h : c.isDigit = true) :
    ¬c = 'n' ∧ ¬c = 't' ∧ ¬c = 'f' ∧ ¬c = '"' ∧ ¬c = '[' ∧ ¬c = '\x7b' ∧ ¬c = '-' := by
  refine ⟨?_, ?_, ?_, ?_, ?_, ?_, ?_⟩ <;> (rintro rfl; exact absurd h (by decide))

/-- Every serialized value is non-empty and starts with a character other
than the two closing delimiters. -/
theorem strV_cons (v : JsonVal) : ∃ c cs, strV v = c :: cs ∧ ¬c = ']' ∧ ¬c = '\x7d' := by
  cases v with
  | null => exact ⟨'n', ['u', 'l', 'l'], by simp [strV], by decide, by decide⟩
  | bool b =>
    cases b with
    | false => exact ⟨'f', ['a', 'l', 's', 'e'], by simp [strV], by decide, by decide⟩
    | true => exact ⟨'t', ['r', 'u', 'e'], by simp [strV], by decide, by decide⟩
  | num n =>
    by_cases h : n < 0
    · exact ⟨'-', natDigits n.natAbs, by simp [strV, numChars, h], by decide, by decide⟩
    · obtain ⟨c, cs, heq, hdig⟩ := natDigits_cons n.toNat
      refine ⟨c, cs, by simp [strV, numChars, h, heq], ?_, ?_⟩
      · rintro rfl; exact absurd hdig (by decide)
      · rintro rfl; exact absurd hdig (by decide)
  | str s => exact ⟨'"', escStr s.data ++ ['"'], by simp [strV], by decide, by decide⟩
  | arr l => exact ⟨'[', strItems l ++ [']'], by simp [strV], by decide, by decide⟩
  | obj fs => exact ⟨'\x7b', strFields fs ++ ['\x7d'], by simp [strV], by decide, by decide⟩

/-- The serialized items of a non-empty array start with the first value's
first character. -/
theorem strItems_head (v : JsonVal) (tl : List JsonVal) :
    ∃ c cs, strItems (v :: tl) = c :: cs ∧ ¬c = ']' ∧ ¬c = '\x7d' := by
  obtain ⟨c, cs, heq, h1, h2⟩ := strV_cons v
  cases tl with
  | nil => exact ⟨c, cs, by simp [strItems, heq], h1, h2⟩
  | cons w tw =>
    exact ⟨c, cs ++ (',' :: strItems (w :: tw)), by simp [strItems, heq], h1, h2⟩

/-- The serialized fields of a non-empty object start with a quote. -/
theorem strFields_head (k : String) (v : JsonVal) (tl : List (String × JsonVal)) :
    ∃ cs, strFields ((k, v) :: tl) = '"' :: cs := by
  cases tl with
  | nil => exact ⟨escStr k.data ++ ('"' :: (':' :: strV v)), by simp [strFields]⟩
  | cons q tq =>
    exact ⟨(escStr k.data ++ ('"' :: (':' :: strV v))) ++ (',' :: strFields (q :: tq)),
      by simp [strFields]⟩

/-- Parsing inverts serialization: with enough fuel, a serialized value
followed by a suitable remainder parses back to the value, and likewise for
non-empty array items and object fields up to their closing delimiter. -/
theorem parse_round (fuel : Nat) :
    (∀ (v : JsonVal) (rest : List Char), (strV v).length < fuel → numGuard v rest = true →
        parseVal fuel (strV v ++ rest) = some (v, rest)) ∧
      (∀ (l : List JsonVal) (rest : List Char), l ≠ [] → (strItems l).length + 1 < fuel →
        parseItems fuel (strItems l ++ (']' :: rest)) = some (l, rest)) ∧
      (∀ (fs : List (String × JsonVal)) (rest : List Char), fs ≠ [] →
          (strFields fs).length + 1 < fuel →
        parseFields fuel (strFields fs ++ ('\x7d' :: rest)) = some (fs, rest)) := by
  induction fuel with
  | zero =>
    exact ⟨fun v rest hlen _ => absurd hlen (Nat.not_lt_zero _),
      fun l rest _ hlen => absurd hlen (Nat.not_lt_zero _),
      fun fs rest _ hlen => absurd hlen (Nat.not_lt_zero _)⟩
  | succ fuel ih =>
    obtain ⟨ihV, ihI, ihF⟩ := ih
    refine ⟨?_, ?_, ?_⟩
    · intro v rest hlen hg
      cases v with
      | null =>
        have h : strV JsonVal.null ++ rest = 'n' :: 'u' :: 'l' :: 'l' :: rest := by
          simp [strV]
        rw [h]
        simp [parseVal, expectChars]
      | bool b =>
        cases b with
        | true =>
          have h : strV (JsonVal.bool true) ++ rest = 't' :: 'r' :: 'u' :: 'e' :: rest := by
            simp [strV]
          rw [h]
          simp [parseVal, expectChars]
        | false =>
          have h : strV (JsonVal.bool false) ++ rest =
              'f' :: 'a' :: 'l' :: 's' :: 'e' :: rest := by
            simp [strV]
          rw [h]
          simp [parseVal, expectChars]
      | num n =>
        have hg' : headNotDigit rest = true := by simpa [numGuard] using hg
        by_cases hn : n < 0
        · have h : strV (JsonVal.num n) ++ rest = '-' :: (natDigits n.natAbs ++ rest) := by
            simp [strV, numChars, hn]
          rw [h]
          have habs : ((n.natAbs : Int)) = -n := Int.ofNat_natAbs_of_nonpos (by omega)
          simp [parseVal, parseNat_natDigits n.natAbs rest hg', habs]
        · obtain ⟨c, cs, heq, hdig⟩ := natDigits_cons n.toNat
          obtain ⟨hne1, hne2, hne3, hne4, hne5, hne6, hne7⟩ := isDigit_ne c hdig
          have h : strV (JsonVal.num n) ++ rest = c :: (cs ++ rest) := by
            simp [strV, numChars, hn, heq]
          have hp : parseNat (natDigits n.toNat ++ rest) = some (n.toNat, rest) :=
            parseNat_natDigits _ _ hg'
          rw [heq, List.cons_append] at hp
          rw [h]
          simp [parseVal, hne1, hne2, hne3, hne4, hne5, hne6, hne7, hdig, hp]
          omega
      | str s =>
        have h : strV (JsonVal.str s) ++ rest = '"' :: (escStr s.data ++ ('"' :: rest)) := by
          simp [strV]
        rw [h]
        simp [parseVal, parseStringBody_escStr s.data rest]
      | arr l =>
        cases l with
        | nil =>
          have h : strV (JsonVal.arr []) ++ rest = '[' :: (']' :: rest) := by
            simp [strV, strItems]
          rw [h]
          simp [parseVal]
        | cons v tl =>
          obtain ⟨c0, cs0, heq0, hne0, _⟩ := strItems_head v tl
          have h : strV (JsonVal.arr (v :: tl)) ++ rest =
              '[' :: (strItems (v :: tl) ++ (']' :: rest)) := by
            simp [strV]
          have hlen2 : (strItems (v :: tl)).length + 1 < fuel := by
            have hx : (strV (JsonVal.arr (v :: tl))).length =
                (strItems (v :: tl)).length + 2 := by
              simp [strV]
            omega
          have hitems := ihI (v :: tl) rest (by simp) hlen2
          rw [h]
          rw [heq0] at hitems ⊢
          simp only [List.cons_append] at hitems
          simp [parseVal, hne0, hitems]
      | obj fs =>
        cases fs with
        | nil =>
          have h : strV (JsonVal.obj []) ++ rest = '\x7b' :: ('\x7d' :: rest) := by
            simp [strV, strFields]
          rw [h]
          simp [parseVal]
        | cons p tl =>
          obtain ⟨k, v⟩ := p
          obtain ⟨cs0, heq0⟩ := strFields_head k v tl
          have h : strV (JsonVal.obj ((k, v) :: tl)) ++ rest =
              '\x7b' :: (strFields ((k, v) :: tl) ++ ('\x7d' :: rest)) := by
            simp [strV]
          have hlen2 : (strFields ((k, v) :: tl)).length + 1 < fuel := by
            have hx : (strV (JsonVal.obj ((k, v) :: tl))).length =
                (strFields ((k, v) :: tl)).length + 2 := by
              simp [strV]
            omega
          have hfields := ihF ((k, v) :: tl) rest (by simp) hlen2
          rw [h]
          rw [heq0] at hfields ⊢
          simp only [List.cons_append] at hfields
          simp [parseVal, hfields]
    · intro l rest hne hlen
      cases l with
      | nil => exact absurd rfl hne
      | cons v tl =>
        cases tl with
        | nil =>
          have heq : strItems [v] = strV v := by simp [strItems]
          rw [heq] at hlen ⊢
          have hval := ihV v (']' :: rest) (by omega) (numGuard_cons v ']' rest (by decide))
          simp [parseItems, hval]
        | cons w tw =>
          have heq : strItems (v :: w :: tw) = strV v ++ (',' :: strItems (w :: tw)) := by
            simp [strItems]
          rw [heq] at hlen ⊢
          simp only [List.length_append, List.length_cons] at hlen
          have hval := ihV v (',' :: (strItems (w :: tw) ++ (']' :: rest))) (by omega)
            (numGuard_cons v ',' _ (by decide))
          have hrest := ihI (w :: tw) rest (by simp) (by omega)
          have hassoc : (strV v ++ (',' :: strItems (w :: tw))) ++ (']' :: rest) =
              strV v ++ (',' :: (strItems (w :: tw) ++ (']' :: rest))) := by
            simp
          rw [hassoc]
          simp [parseItems, hval, hrest]
    · intro fs rest hne hlen
      cases fs with
      | nil => exact absurd rfl hne
      | cons p tl =>
        obtain ⟨k, v⟩ := p
        cases tl with
        | nil =>
          have heq : strFields [(k, v)] =
              '"' :: (escStr k.data ++ ('"' :: (':' :: strV v))) := by
            simp [strFields]
          rw [heq] at hlen ⊢
          simp only [List.length_cons, List.length_append] at hlen
          have hval := ihV v ('\x7d' :: rest) (by omega)
            (numGuard_cons v '\x7d' rest (by decide))
          have hassoc : ('"' :: (escStr k.data ++ ('"' :: (':' :: strV v)))) ++ ('\x7d' :: rest) =
              '"' :: (escStr k.data ++ ('"' :: (':' :: (strV v ++ ('\x7d' :: rest))))) := by
            simp
          rw [hassoc]
          simp [parseFields, parseStringBody_escStr k.data, hval]
        | cons q tq =>
          have heq : strFields ((k, v) :: q :: tq) =
              ('"' :: (escStr k.data ++ ('"' :: (':' :: strV v)))) ++
                (',' :: strFields (q :: tq)) := by
            simp [strFields]
          rw [heq] at hlen ⊢
          simp only [List.length_cons, List.length_append] at hlen
          have hval := ihV v (',' :: (strFields (q :: tq) ++ ('\x7d' :: rest))) (by omega)
            (numGuard_cons v ',' _ (by decide))
          have hrest := ihF (q :: tq) rest (by simp) (by omega)
          have hassoc : (('"' :: (escStr k.data ++ ('"' :: (':' :: strV v)))) ++
                (',' :: strFields (q :: tq))) ++ ('\x7d' :: rest) =
              '"' :: (escStr k.data ++ ('"' :: (':' ::
                (strV v ++ (',' :: (strFields (q :: tq) ++ ('\x7d' :: rest))))))) := by
            simp
          rw [hassoc]
          simp [parseFields, parseStringBody_escStr k.data, hval, hrest]

/-- Round trip at the top level: parsing the serialized text of a value
recovers the value. -/
theorem jsonParse_jsonStringify (v : JsonVal) : jsonParse (jsonStringify v) = some v := by
  have hg : numGuard v [] = true := by cases v <;> simp [numGuard, headNotDigit]
  have h := (parse_round ((strV v).length + 1)).1 v [] (by omega) hg
  rw [List.append_nil] at h
  show (match parseVal ((strV v).length + 1) (strV v) with
    | some (w, []) => some w
    | _ => none) = some v
  rw [h]

/-- C9: for every JSON-representable plain object (a list of fields) and
every prototype, `fromJSON(proto, getJSON(obj))` returns a value whose
prototype is `proto` and whose own fields equal the object's fields, the
parsed fields having been merged onto the fresh `Object.create(proto)`
value; and `getJSON` is exactly the modelled `JSON.stringify` text. -/
theorem C9_fromJSON_getJSON_roundtrip {Proto : Type} (proto : Proto)
    (fields : List (String × JsonVal)) :
    fromJSON proto (getJSON (JsonVal.obj fields)) =
        some { proto := proto, fields := fields } ∧
      getJSON (JsonVal.obj fields) = jsonStringify (JsonVal.obj fields) := by
  refine ⟨?_, rfl⟩
  unfold fromJSON getJSON
  rw [jsonParse_jsonStringify (JsonVal.obj fields)]
  rfl
